import Mathlib

/-!
# Verification of the vector search / embedding cache service

A shallow embedding of `app/api/v1/stock/services/vector_service.py`
(class `VectorSearchService`), the table definitions in
`app/api/v1/stock/tables_stock.py`, the request/response models in
`app/api/v1/stock/models_stock.py`, and the symbol handling of
`app/api/v1/stock/controllers_stock.py`.

Modelling conventions:
* timestamps (`datetime`) are integers (seconds);
* vectors (`list[float]`) are lists of rationals;
* the database session is explicit state: each table is a list of rows in
  insertion order; `.first()` is `List.find?`, `.all()` is `List.filter`;
* the embedding provider (`SentenceTransformer.encode`) and the similarity
  kernel (`sklearn cosine_similarity`) are external collaborators and enter
  as function parameters;
* a fallible durable write (`db.add`/`db.merge` + `commit` inside
  `try/except`) is modelled by a boolean success flag plus the table's
  unique-key constraint; on failure the table is left unchanged (rollback)
  and the call continues, exactly as the `except` branches do;
* every function additionally returns the list of provider invocations it
  performed, so that "the provider is called at most once" is expressible.
-/

/-- Seconds since the epoch; models `datetime` values. -/
abbrev Timestamp := Int

/-- A vector of floats (`list[float]`); modelled over ℚ. -/
abbrev Vec := List Rat

/-- A JSON-like metadata map (`dict`), modelled as an association list. -/
abbrev Metadata := List (String × String)

/-- Row of table `stock_data` (`StockData` in `tables_stock.py`,
including the `id`/`created_at` columns inherited from `BaseMCPTable`).
Only the columns the verified operations read are modelled. -/
structure StockData where
  id : Nat
  created_at : Timestamp
  symbol : String
  data_type : String
  content : String
  extra_metadata : Metadata
  embedding_id : Option String
  data_timestamp : Option Timestamp
deriving Repr, DecidableEq

/-- Row of table `vector_embeddings` (`VectorEmbedding` in `tables_stock.py`).
The column `embedding_id` carries a unique constraint. -/
structure VectorEmbedding where
  embedding_id : String
  embedding_vector : Vec
  model_name : String
  dimension : Nat
  created_at : Timestamp
  last_used : Timestamp
  usage_count : Nat
deriving Repr, DecidableEq

/-- A single search hit (`VectorSearchResult` in `models_stock.py`). -/
structure VectorSearchResult where
  content : String
  content_type : String
  symbol : Option String
  similarity_score : Rat
  extra_metadata : Metadata
  timestamp : Timestamp
deriving Repr, DecidableEq

/-- Row of table `market_cache` (`MarketCache` in `tables_stock.py`).
The column `cache_key` carries a unique constraint.  `cache_value` holds the
serialized result payload `{"results": [...]}`; serialization of results via
`model_dump(mode="json")` followed by `VectorSearchResult(**r)` is a
round-trip and is modelled as the identity, so the payload is stored
structurally. -/
structure MarketCache where
  cache_key : String
  cache_value : List VectorSearchResult
  cache_type : String
  expires_at : Timestamp
  created_at : Timestamp
  hit_count : Nat
  last_accessed : Timestamp
deriving Repr, DecidableEq

/-- A validated search request (`VectorSearchQuery` in `models_stock.py`),
after its pydantic field constraints have been checked. -/
structure VectorSearchQuery where
  query : String
  symbols : Option (List String)
  limit : Nat
  similarity_threshold : Rat
  include_news : Bool
  include_analysis : Bool
  date_from : Option Timestamp
  date_to : Option Timestamp
deriving Repr, DecidableEq

/-- The durable store: the three tables, each in insertion order. -/
structure DB where
  stock_data : List StockData
  vector_embeddings : List VectorEmbedding
  market_cache : List MarketCache
deriving Repr, DecidableEq

/-- The in-process state of a `VectorSearchService` instance:
its configuration and the ephemeral embedding map `self.embedding_cache`
(a Python dict, modelled as an association list in insertion order). -/
structure ServiceState where
  model_name : String
  cache_ttl_hours : Int
  embedding_cache : List (String × Vec)
deriving Repr, DecidableEq

/-- One hexadecimal digit. -/
def hexDigitChar (n : Nat) : Char :=
  if n < 10 then Char.ofNat (48 + n) else Char.ofNat (87 + n)

/-- Big-endian rendering of `n` as `k` hexadecimal digits. -/
def natToHexAux : Nat → Nat → List Char
  | 0, _ => []
  | k + 1, n => natToHexAux k (n / 16) ++ [hexDigitChar (n % 16)]

/-- Digest stand-in for `hashlib.sha256(s.encode()).hexdigest()[:16]`:
a deterministic 16-hex-character digest of the input string (an FNV-style
fold).  Every theorem below relies only on the digest being a pure function
of the input string, which is the property shared with the real digest. -/
def hexdigest16 (s : String) : String :=
  String.mk (natToHexAux 16
    (s.data.foldl (fun h c => (h * 1099511628211 + c.toNat) % (2 ^ 64))
      14695981039346656037))

/-- `VectorSearchService._generate_cache_key`:
`f"embedding:{model_name}:{content_hash[:16]}"`. -/
def generate_cache_key (content model_name : String) : String :=
  "embedding:" ++ model_name ++ ":" ++ hexdigest16 content

/-- JSON rendering of a string (escaping elided: no claim depends on the
concrete escape sequences). -/
def jsonStr (s : String) : String := "\"" ++ s ++ "\""

/-- JSON rendering of `ts.isoformat() if ts else None`; the ISO rendering of
a timestamp is modelled by its decimal rendering. -/
def jsonOptTimestamp : Option Timestamp → String
  | none => "null"
  | some t => jsonStr (toString t)

/-- JSON rendering of a Python bool. -/
def jsonBool : Bool → String
  | true => "true"
  | false => "false"

/-- JSON rendering of an optional string list. -/
def jsonSymbols : Option (List String) → String
  | none => "null"
  | some l => "[" ++ String.intercalate ", " (l.map jsonStr) ++ "]"

/-- `sorted(query.symbols) if query.symbols else None`: note the Python
truthiness — both `None` and the empty list canonicalize to `None`. -/
def canonicalSymbols : Option (List String) → Option (List String)
  | none => none
  | some [] => none
  | some l => some (l.insertionSort (· ≤ ·))

/-- `json.dumps(query_dict, sort_keys=True)`: the eight entries of
`query_dict` serialized with their keys in sorted order. -/
def serialize_search_query (q : VectorSearchQuery) : String :=
  "\x7b\"date_from\": " ++ jsonOptTimestamp q.date_from ++
  ", \"date_to\": " ++ jsonOptTimestamp q.date_to ++
  ", \"include_analysis\": " ++ jsonBool q.include_analysis ++
  ", \"include_news\": " ++ jsonBool q.include_news ++
  ", \"limit\": " ++ toString q.limit ++
  ", \"query\": " ++ jsonStr q.query ++
  ", \"symbols\": " ++ jsonSymbols (canonicalSymbols q.symbols) ++
  ", \"threshold\": " ++ toString q.similarity_threshold ++ "\x7d"

/-- `VectorSearchService._generate_search_cache_key`.  The method is defined
on `self` but reads nothing from it (in particular not `self.model_name`);
the unused `ServiceState` argument mirrors that. -/
def generate_search_cache_key (_st : ServiceState) (q : VectorSearchQuery) : String :=
  "search:" ++ hexdigest16 (serialize_search_query q)

/-- Lookup in the ephemeral dict `self.embedding_cache`. -/
def memLookup (cache : List (String × Vec)) (k : String) : Option Vec :=
  (cache.find? (fun p => p.1 == k)).map (·.2)

/-- Assignment `self.embedding_cache[k] = v` on the ephemeral dict:
replace the entry in place if the key is present (a dict holds at most one
entry per key), append otherwise. -/
def memInsert : List (String × Vec) → String → Vec → List (String × Vec)
  | [], k, v => [(k, v)]
  | p :: ps, k, v => if p.1 == k then (k, v) :: ps else p :: memInsert ps k v

/-- Mutation of the single ORM row returned by `.first()`: rewrite the first
element satisfying `p` and leave everything else in place. -/
def updateFirst (p : α → Bool) (f : α → α) : List α → List α
  | [] => []
  | x :: xs => if p x then f x :: xs else x :: updateFirst p f xs

/-- `db.exec(select(VectorEmbedding).where(embedding_id == k)).first()`. -/
def findEmbedding (db : DB) (k : String) : Option VectorEmbedding :=
  db.vector_embeddings.find? (fun e => e.embedding_id == k)

/-- Output of `VectorSearchService.get_embedding`: the returned
`(id, vector)` pair, the updated service state and database, and the list of
contents passed to the embedding provider during the call. -/
structure EmbedOut where
  embedding_id : String
  vector : Vec
  state : ServiceState
  db : DB
  provider_calls : List String
deriving Repr, DecidableEq

/-- `VectorSearchService.get_embedding(db, content, force_refresh)`.

`encode` is the external provider `self._get_model().encode`; `now` is the
current wall-clock time; `db_write_ok` tells whether the durable write
inside the `try` block succeeds (its failure is logged and swallowed, with
a rollback).  The fresh-row insert (`db.add`) additionally fails against the
unique constraint on `embedding_id` when a row with that id already exists
(the `force_refresh` re-computation path). -/
def get_embedding (encode : String → Vec) (now : Timestamp) (db_write_ok : Bool)
    (st : ServiceState) (db : DB) (content : String) (force_refresh : Bool) :
    EmbedOut :=
  let cache_key := generate_cache_key content st.model_name
  match if force_refresh then none else memLookup st.embedding_cache cache_key with
  | some v =>
      -- memory cache hit: return immediately, nothing else is touched
      { embedding_id := cache_key, vector := v, state := st, db := db,
        provider_calls := [] }
  | none =>
    match if force_refresh then none else findEmbedding db cache_key with
    | some cached =>
        -- database cache hit: update usage statistics, fill the memory cache
        let ve' := updateFirst (fun e => e.embedding_id == cache_key)
          (fun e => { e with last_used := now, usage_count := e.usage_count + 1 })
          db.vector_embeddings
        let db' := { db with vector_embeddings := ve' }
        let mem' := memInsert st.embedding_cache cache_key cached.embedding_vector
        let st' := { st with embedding_cache := mem' }
        { embedding_id := cache_key, vector := cached.embedding_vector,
          state := st', db := db', provider_calls := [] }
    | none =>
        -- full miss (or forced refresh): invoke the provider
        let v := encode content
        let row : VectorEmbedding :=
          { embedding_id := cache_key, embedding_vector := v,
            model_name := st.model_name, dimension := v.length,
            created_at := now, last_used := now, usage_count := 1 }
        let db' :=
          if db_write_ok && (findEmbedding db cache_key).isNone then
            { db with vector_embeddings := db.vector_embeddings ++ [row] }
          else
            db  -- write failed: rollback, warning logged, call continues
        let mem' := memInsert st.embedding_cache cache_key v
        let st' := { st with embedding_cache := mem' }
        { embedding_id := cache_key, vector := v, state := st', db := db',
          provider_calls := [content] }

/-- The row predicate of `_get_cached_search_results`:
`cache_key == key AND cache_type == "search" AND expires_at > now`. -/
def cachedSearchPred (now : Timestamp) (key : String) (r : MarketCache) : Bool :=
  r.cache_key == key && r.cache_type == "search" && decide (now < r.expires_at)

/-- `VectorSearchService._get_cached_search_results(db, cache_key)`:
returns the deserialized payload of the first matching unexpired `search`
entry (bumping its hit counter and access time), or `none` and an unchanged
database. -/
def get_cached_search_results (now : Timestamp) (db : DB) (key : String) :
    Option (List VectorSearchResult) × DB :=
  match db.market_cache.find? (cachedSearchPred now key) with
  | none => (none, db)
  | some r =>
      let mc' := updateFirst (cachedSearchPred now key)
        (fun x => { x with hit_count := x.hit_count + 1, last_accessed := now })
        db.market_cache
      (some r.cache_value, { db with market_cache := mc' })

/-- `VectorSearchService._cache_search_results(db, cache_key, results)`.
`db.merge` on a row with a fresh primary key is an INSERT; it fails — with
the failure logged, the transaction rolled back and the call continuing —
when the surrounding write fails (`cache_write_ok = false`) or when the
unique constraint on `cache_key` is violated. -/
def cache_search_results (now : Timestamp) (cache_write_ok : Bool)
    (st : ServiceState) (db : DB) (key : String)
    (results : List VectorSearchResult) : DB :=
  let row : MarketCache :=
    { cache_key := key, cache_value := results, cache_type := "search",
      expires_at := now + st.cache_ttl_hours * 3600, created_at := now,
      hit_count := 0, last_accessed := now }
  if cache_write_ok && (db.market_cache.find? (fun r => r.cache_key == key)).isNone then
    { db with market_cache := db.market_cache ++ [row] }
  else
    db

/-- `VectorSearchService._build_filter_conditions(query)` as a row predicate
(the SQL conjunction evaluated on one `stock_data` row).  Note the Python
truthiness tests: an empty symbol list and an empty content-type list each
add no condition; a NULL `data_timestamp` falls back to `created_at` in the
date conditions. -/
def build_filter_conditions (q : VectorSearchQuery) (item : StockData) : Bool :=
  (match q.symbols with
   | none => true
   | some [] => true
   | some syms => syms.contains item.symbol)
  &&
  (let content_types :=
    (if q.include_news then ["news"] else []) ++
    (if q.include_analysis then ["analysis"] else [])
   if content_types.isEmpty then true else content_types.contains item.data_type)
  &&
  (match q.date_from with
   | none => true
   | some d =>
     match item.data_timestamp with
     | some t => decide (d ≤ t)
     | none => decide (d ≤ item.created_at))
  &&
  (match q.date_to with
   | none => true
   | some d =>
     match item.data_timestamp with
     | some t => decide (t ≤ d)
     | none => decide (item.created_at ≤ d))

/-- Result ordering used by `results.sort(key=lambda x: x.similarity_score,
reverse=True)`: descending by score.  Python's sort is stable; Mathlib's
`insertionSort` with this relation has exactly the same behaviour (equal
scores keep their original relative order). -/
def scoreDesc (a b : VectorSearchResult) : Prop :=
  b.similarity_score ≤ a.similarity_score

instance : DecidableRel scoreDesc := fun a b =>
  inferInstanceAs (Decidable (b.similarity_score ≤ a.similarity_score))

instance : IsTotal VectorSearchResult scoreDesc :=
  ⟨fun a b => (le_total b.similarity_score a.similarity_score)⟩

instance : IsTrans VectorSearchResult scoreDesc :=
  ⟨fun _ _ _ h1 h2 => le_trans h2 h1⟩

/-- Invariant of the result cache that the program maintains: every entry
of kind `search` holds a payload sorted descending by score.  Only
`_cache_search_results` writes `search` entries, and it always stores the
ranked, truncated result list. -/
def searchCacheSorted (mc : List MarketCache) : Prop :=
  ∀ r ∈ mc, r.cache_type = "search" → List.Sorted scoreDesc r.cache_value

/-- Output of `VectorSearchService.search_similar_content`: the ranked
results, whether they were served from the result cache, the updated state
and database, and the provider invocations performed. -/
structure SearchOut where
  results : List VectorSearchResult
  from_cache : Bool
  state : ServiceState
  db : DB
  provider_calls : List String
deriving Repr, DecidableEq

/-- The scoring stage of `search_similar_content`: for each candidate with a
resolvable embedding, compute the similarity and keep it when
`similarity >= query.similarity_threshold`. -/
def score_candidates (sim : Vec → Vec → Rat) (q : VectorSearchQuery)
    (query_vector : Vec) (items : List StockData)
    (lookupVec : String → Option Vec) : List VectorSearchResult :=
  items.filterMap (fun item =>
    match item.embedding_id with
    | none => none
    | some eid =>
      match lookupVec eid with
      | none => none  -- `if item.embedding_id not in embeddings: continue`
      | some ivec =>
        let similarity := sim query_vector ivec
        if q.similarity_threshold ≤ similarity then
          some { content := item.content, content_type := item.data_type,
                 symbol := some item.symbol, similarity_score := similarity,
                 extra_metadata := item.extra_metadata,
                 timestamp := item.data_timestamp.getD item.created_at }
        else none)

/-- The cache-miss path of `search_similar_content`: embed the query, load
and filter candidates, batch-load their embeddings, score, rank, truncate,
and write the result list into the cache (tolerating write failure). -/
def search_compute (encode : String → Vec) (sim : Vec → Vec → Rat)
    (now : Timestamp) (db_write_ok cache_write_ok : Bool)
    (st : ServiceState) (db : DB) (q : VectorSearchQuery)
    (search_cache_key : String) : SearchOut :=
  let e := get_embedding encode now db_write_ok st db q.query false
  let stock_data_items := e.db.stock_data.filter
    (fun item => item.embedding_id.isSome && build_filter_conditions q item)
  if stock_data_items.isEmpty then
    -- empty candidate set: return [] immediately, caching nothing
    { results := [], from_cache := false, state := e.state, db := e.db,
      provider_calls := e.provider_calls }
  else
    let embedding_ids := stock_data_items.filterMap (·.embedding_id)
    let embeddings := e.db.vector_embeddings.filter
      (fun emb => embedding_ids.contains emb.embedding_id)
    let lookupVec := fun (eid : String) =>
      (embeddings.find? (fun emb => emb.embedding_id == eid)).map
        (·.embedding_vector)
    let results := score_candidates sim q e.vector stock_data_items lookupVec
    let limited := (results.insertionSort scoreDesc).take q.limit
    let db' := cache_search_results now cache_write_ok e.state e.db
      search_cache_key limited
    { results := limited, from_cache := false, state := e.state, db := db',
      provider_calls := e.provider_calls }

/-- `VectorSearchService.search_similar_content(db, query)`.  The cache
lookup's hit-count bump is committed even when the cached payload is the
empty list, but `if cached_results:` is a Python truthiness test, so an
empty cached payload falls through to a full recomputation. -/
def search_similar_content (encode : String → Vec) (sim : Vec → Vec → Rat)
    (now : Timestamp) (db_write_ok cache_write_ok : Bool)
    (st : ServiceState) (db : DB) (q : VectorSearchQuery) : SearchOut :=
  let search_cache_key := generate_search_cache_key st q
  let looked := get_cached_search_results now db search_cache_key
  match looked.1 with
  | some rs =>
      if rs.isEmpty then
        search_compute encode sim now db_write_ok cache_write_ok st looked.2 q
          search_cache_key
      else
        { results := rs, from_cache := true, state := st, db := looked.2,
          provider_calls := [] }
  | none =>
      search_compute encode sim now db_write_ok cache_write_ok st looked.2 q
        search_cache_key

/-- The retention cutoff of `cleanup_expired_cache`:
`timedelta(days=30)` in seconds. -/
def retention_seconds : Int := 30 * 86400

/-- Output of `VectorSearchService.cleanup_expired_cache`. -/
structure CleanupOut where
  state : ServiceState
  db : DB
  expired_removed : Nat
  embeddings_removed : Nat
deriving Repr, DecidableEq

/-- `VectorSearchService.cleanup_expired_cache(db)` invoked at time `now`
(the successful path; a store failure rolls the whole sweep back).
Deletes every `market_cache` row with `expires_at < now` and every
`vector_embeddings` row with `last_used < now - 30 days`, removing the
latter's ids from the ephemeral map. -/
def cleanup_expired_cache (now : Timestamp) (st : ServiceState) (db : DB) :
    CleanupOut :=
  let expired_items := db.market_cache.filter (fun r => decide (r.expires_at < now))
  let cutoff_date := now - retention_seconds
  let old_embeddings := db.vector_embeddings.filter
    (fun e => decide (e.last_used < cutoff_date))
  let mem' := st.embedding_cache.filter
    (fun p => !(old_embeddings.any (fun e => e.embedding_id == p.1)))
  { state := { st with embedding_cache := mem' },
    db := { db with
      market_cache := db.market_cache.filter (fun r => !decide (r.expires_at < now)),
      vector_embeddings := db.vector_embeddings.filter
        (fun e => !decide (e.last_used < cutoff_date)) },
    expired_removed := expired_items.length,
    embeddings_removed := old_embeddings.length }

/-- Python `str.upper()` (ASCII), fully evaluable: upper-case every
character. -/
def str_upper (s : String) : String := String.mk (s.data.map Char.toUpper)

/-- `StockDataCreate` (`models_stock.py`): the payload of a create request
(the fields the modelled operations read). -/
structure StockDataCreate where
  symbol : String
  data_type : String
  content : String
  extra_metadata : Metadata
deriving Repr, DecidableEq

/-- `StockController.create_stock_data(db, stock_data)` (successful path):
generate the content embedding, then insert a `stock_data` row whose symbol
is upper-cased (`stock_data.symbol.upper()`) and whose `data_timestamp` is
the creation instant.  Returns the created row as well. -/
def create_stock_data (encode : String → Vec) (now : Timestamp)
    (db_write_ok : Bool) (st : ServiceState) (db : DB)
    (input : StockDataCreate) : StockData × ServiceState × DB × List String :=
  let e := get_embedding encode now db_write_ok st db input.content false
  let row : StockData :=
    { id := e.db.stock_data.length, created_at := now,
      symbol := str_upper input.symbol, data_type := input.data_type,
      content := input.content, extra_metadata := input.extra_metadata,
      embedding_id := some e.embedding_id, data_timestamp := some now }
  (row, e.state, { e.db with stock_data := e.db.stock_data ++ [row] },
   e.provider_calls)

/-- A search request as submitted, before pydantic validation
(`limit` and `similarity_threshold` unconstrained). -/
structure RawVectorSearchQuery where
  query : String
  symbols : Option (List String)
  limit : Int
  similarity_threshold : Rat
  include_news : Bool
  include_analysis : Bool
  date_from : Option Timestamp
  date_to : Option Timestamp
deriving Repr, DecidableEq

/-- The pydantic field constraints of `VectorSearchQuery`:
`limit: ge=1, le=100` and `similarity_threshold: ge=0.0, le=1.0`.
No constraint relates `date_from` and `date_to`. -/
def validate_vector_search_query (r : RawVectorSearchQuery) :
    Option VectorSearchQuery :=
  if 1 ≤ r.limit ∧ r.limit ≤ 100 ∧
     0 ≤ r.similarity_threshold ∧ r.similarity_threshold ≤ 1 then
    some { query := r.query, symbols := r.symbols, limit := r.limit.toNat,
           similarity_threshold := r.similarity_threshold,
           include_news := r.include_news,
           include_analysis := r.include_analysis,
           date_from := r.date_from, date_to := r.date_to }
  else
    none

/-- Outcome of the `/search` endpoint: a validation rejection or a ranked
result list. -/
inductive SearchResponse where
  | validationError : SearchResponse
  | ok : List VectorSearchResult → SearchResponse
deriving Repr, DecidableEq

/-- The `/search` endpoint: request-model validation runs first; only a
validated query reaches `search_similar_content` (and hence the store). -/
def search_endpoint (encode : String → Vec) (sim : Vec → Vec → Rat)
    (now : Timestamp) (db_write_ok cache_write_ok : Bool)
    (st : ServiceState) (db : DB) (r : RawVectorSearchQuery) :
    SearchResponse × ServiceState × DB :=
  match validate_vector_search_query r with
  | none => (.validationError, st, db)
  | some q =>
      let out := search_similar_content encode sim now db_write_ok
        cache_write_ok st db q
      (.ok out.results, out.state, out.db)

/-- What `get_embedding(content, force_refresh=False)` returns, as a pure
function of the current state: the memory-cache value if present, else the
durable row's vector, else a fresh provider encoding.  `get_embedding`
returns exactly this pair (proved below). -/
def peek_embedding (encode : String → Vec) (st : ServiceState) (db : DB)
    (content : String) : String × Vec :=
  let cache_key := generate_cache_key content st.model_name
  match memLookup st.embedding_cache cache_key with
  | some v => (cache_key, v)
  | none =>
    match findEmbedding db cache_key with
    | some e => (cache_key, e.embedding_vector)
    | none => (cache_key, encode content)

/-- One `get_embedding` invocation in a trace: its content argument, the
wall-clock time of the call, and whether its durable write would succeed. -/
structure EmbedCall where
  content : String
  now : Timestamp
  db_write_ok : Bool
deriving Repr, DecidableEq

/-- Accumulated outcome of a trace of `get_embedding` calls. -/
structure RunOut where
  state : ServiceState
  db : DB
  outputs : List (String × Vec)
  provider_calls : List String
deriving Repr, DecidableEq

/-- Run a sequence of `get_embedding` calls (all with `force_refresh=False`)
against one service instance, collecting each call's returned pair and all
provider invocations. -/
def run_get_embeddings (encode : String → Vec) (st : ServiceState) (db : DB) :
    List EmbedCall → RunOut
  | [] => ⟨st, db, [], []⟩
  | c :: cs =>
    let e := get_embedding encode c.now c.db_write_ok st db c.content false
    let r := run_get_embeddings encode e.state e.db cs
    ⟨r.state, r.db, (e.embedding_id, e.vector) :: r.outputs,
     e.provider_calls ++ r.provider_calls⟩

/-! ### Concrete scenarios used by counterexamples and witnesses -/

/-- A provider returning the unit vector `[1, 0]` for every content. -/
def encode_unit : String → Vec := fun _ => [1, 0]

/-- Constant similarity kernel `1`.  In the scenarios below every scored
pair consists of the identical unit vectors `[1,0]` and `[1,0]`, whose true
cosine similarity is exactly `1`, so this kernel agrees with
`sklearn.cosine_similarity` on every pair it is applied to. -/
def sim_one : Vec → Vec → Rat := fun _ _ => 1

/-- A fresh service instance configured with model `"m"` and a 24-hour TTL. -/
def st0 : ServiceState := ⟨"m", 24, []⟩

/-- An empty database. -/
def dbE : DB := ⟨[], [], []⟩

/-- Two `stock_data` news rows for `AAPL` — the older one (authoritative
timestamp 100) enumerated before the newer one (timestamp 200) — with two
identical stored embedding vectors `[1, 0]`. -/
def db0 : DB :=
  ⟨[⟨1, 10, "AAPL", "news", "old", [], some "ea", some 100⟩,
    ⟨2, 20, "AAPL", "news", "new", [], some "eb", some 200⟩],
   [⟨"ea", [1, 0], "m", 2, 0, 1000, 1⟩, ⟨"eb", [1, 0], "m", 2, 0, 1000, 1⟩],
   []⟩

/-- An unrestricted search query with threshold 0 and limit 10. -/
def q1 : VectorSearchQuery := ⟨"q", none, 10, 0, true, true, none, none⟩

/-- A `market_cache` row whose expiry timestamp is exactly 100. -/
def mc3 : MarketCache := ⟨"k3", [], "search", 100, 0, 0, 0⟩

/-- A database holding only `mc3`. -/
def db3 : DB := ⟨[], [], [mc3]⟩

/-- The embedding cache key of content `"c"` under model `"m"`. -/
def key8 : String := generate_cache_key "c" "m"

/-- A service instance whose ephemeral map already holds `key8`. -/
def st8 : ServiceState := ⟨"m", 24, [(key8, [1])]⟩

/-- A durable embedding row for `key8` with usage counter 5, last used at 0. -/
def ve8 : VectorEmbedding := ⟨key8, [1], "m", 1, 0, 0, 5⟩

/-- A database holding only `ve8`. -/
def db8 : DB := ⟨[], [ve8], []⟩

/-- A create request whose symbol is spelled in lower case. -/
def inp9 : StockDataCreate := ⟨"aapl", "news", "apple news", []⟩

/-- A raw search request with valid threshold and limit but
`date_from = 100` after `date_to = 0`. -/
def r4 : RawVectorSearchQuery := ⟨"q", none, 10, 0, true, true, some 100, some 0⟩

/-- A raw search request with threshold `2`, outside `[0, 1]`. -/
def r4b : RawVectorSearchQuery := ⟨"q", none, 10, 2, true, true, none, none⟩

/-- A trace of three `get_embedding` calls: contents `"a"`, `"b"`, `"a"`
(the last one with a failing durable write). -/
def calls2 : List EmbedCall := [⟨"a", 0, true⟩, ⟨"b", 1, true⟩, ⟨"a", 2, false⟩]

/-- A provider mapping each content to the one-element vector of its length. -/
def encode_len : String → Vec := fun s => [(s.length : Rat)]

/-! ### Helper lemmas about the ephemeral map and row updates -/

theorem memLookup_memInsert_self (m : List (String × Vec)) (k : String) (v : Vec) :
    memLookup (memInsert m k v) k = some v := by
  induction m with
  | nil => simp [memInsert, memLookup]
  | cons p ps ih =>
    by_cases h : p.1 = k
    · simp [memInsert, memLookup, h]
    · simp only [memInsert, memLookup] at *
      rw [if_neg (by simpa using h)]
      simpa [List.find?_cons_of_neg, h] using ih

theorem memLookup_memInsert_ne (m : List (String × Vec)) (k k' : String) (v : Vec)
    (h : k' ≠ k) : memLookup (memInsert m k v) k' = memLookup m k' := by
  induction m with
  | nil => simp [memInsert, memLookup, h, Ne.symm h]
  | cons p ps ih =>
    by_cases hp : p.1 = k
    · simp [memInsert, memLookup, hp, Ne.symm h]
    · simp only [memInsert, memLookup] at *
      rw [if_neg (by simpa using hp)]
      by_cases hp' : p.1 = k'
      · simp [List.find?_cons_of_pos, hp']
      · simpa [List.find?_cons_of_neg, hp'] using ih

theorem memLookup_memInsert_isSome (m : List (String × Vec)) (k k' : String)
    (v : Vec) (h : (memLookup m k').isSome) :
    (memLookup (memInsert m k v) k').isSome := by
  by_cases hk : k' = k
  · subst hk; simp [memLookup_memInsert_self]
  · rwa [memLookup_memInsert_ne m k k' v hk]

theorem find?_updateFirst_of_ne {α : Type} (p q : α → Bool) (f : α → α)
    (l : List α) (h1 : ∀ x, p x = true → q x = false)
    (h2 : ∀ x, p x = true → q (f x) = false) :
    (updateFirst p f l).find? q = l.find? q := by
  induction l with
  | nil => rfl
  | cons a as ih =>
    by_cases hpa : p a = true
    · simp only [updateFirst, hpa, if_pos]
      rw [List.find?_cons_of_neg _ (by simp [h2 a hpa]),
          List.find?_cons_of_neg _ (by simp [h1 a hpa])]
    · simp only [updateFirst, hpa, if_neg, Bool.false_eq_true, not_false_iff]
      by_cases hqa : q a = true
      · rw [List.find?_cons_of_pos _ hqa, List.find?_cons_of_pos _ hqa]
      · rw [List.find?_cons_of_neg _ (by simpa using hqa),
            List.find?_cons_of_neg _ (by simpa using hqa)]
        exact ih

theorem mem_updateFirst_of_find? {α : Type} (p : α → Bool) (f : α → α)
    (l : List α) (r : α) (h : l.find? p = some r) : f r ∈ updateFirst p f l := by
  induction l with
  | nil => simp [List.find?] at h
  | cons a as ih =>
    by_cases hpa : p a = true
    · rw [List.find?_cons_of_pos _ hpa] at h
      injection h with h; subst h
      simp [updateFirst, hpa]
    · rw [List.find?_cons_of_neg _ (by simpa using hpa)] at h
      simp only [updateFirst, hpa, if_neg, Bool.false_eq_true, not_false_iff]
      exact List.mem_cons_of_mem a (ih h)

theorem find?_append_singleton_ne (l : List VectorEmbedding)
    (row : VectorEmbedding) (k : String) (h : row.embedding_id ≠ k) :
    (l ++ [row]).find? (fun e => e.embedding_id == k) =
      l.find? (fun e => e.embedding_id == k) := by
  rw [List.find?_append]
  have hb : (row.embedding_id == k) = false := by simpa using h
  have : [row].find? (fun e => e.embedding_id == k) = none := by
    simp [List.find?, hb]
  simp [this]

/-! ### Structural lemmas about `get_embedding` -/

theorem get_embedding_memhit (encode : String → Vec) (now : Timestamp)
    (ok : Bool) (st : ServiceState) (db : DB) (c : String) (v : Vec)
    (h : memLookup st.embedding_cache (generate_cache_key c st.model_name) = some v) :
    get_embedding encode now ok st db c false =
      ⟨generate_cache_key c st.model_name, v, st, db, []⟩ := by
  unfold get_embedding
  simp [h]

theorem get_embedding_peek (encode : String → Vec) (now : Timestamp)
    (ok : Bool) (st : ServiceState) (db : DB) (c : String) :
    ((get_embedding encode now ok st db c false).embedding_id,
     (get_embedding encode now ok st db c false).vector) =
      peek_embedding encode st db c := by
  unfold get_embedding peek_embedding
  cases hmem : memLookup st.embedding_cache (generate_cache_key c st.model_name) with
  | some v => simp [hmem]
  | none =>
    cases hfind : findEmbedding db (generate_cache_key c st.model_name) with
    | some e => simp [hmem, hfind]
    | none => simp [hmem, hfind]

theorem get_embedding_model_name (encode : String → Vec) (now : Timestamp)
    (ok : Bool) (st : ServiceState) (db : DB) (c : String) (fr : Bool) :
    (get_embedding encode now ok st db c fr).state.model_name = st.model_name := by
  unfold get_embedding
  cases fr with
  | true =>
    simp only [if_pos rfl]
    (repeat' split) <;> simp
  | false =>
    cases hmem : memLookup st.embedding_cache (generate_cache_key c st.model_name) with
    | some v => simp [hmem]
    | none =>
      cases hfind : findEmbedding db (generate_cache_key c st.model_name) with
      | some e => simp [hmem, hfind]
      | none =>
        simp only [hmem, hfind]
        (repeat' split) <;> simp

theorem get_embedding_ttl (encode : String → Vec) (now : Timestamp)
    (ok : Bool) (st : ServiceState) (db : DB) (c : String) (fr : Bool) :
    (get_embedding encode now ok st db c fr).state.cache_ttl_hours =
      st.cache_ttl_hours := by
  unfold get_embedding
  cases fr with
  | true =>
    simp only [if_pos rfl]
    (repeat' split) <;> simp
  | false =>
    cases hmem : memLookup st.embedding_cache (generate_cache_key c st.model_name) with
    | some v => simp [hmem]
    | none =>
      cases hfind : findEmbedding db (generate_cache_key c st.model_name) with
      | some e => simp [hmem, hfind]
      | none =>
        simp only [hmem, hfind]
        (repeat' split) <;> simp

theorem get_embedding_market_cache (encode : String → Vec) (now : Timestamp)
    (ok : Bool) (st : ServiceState) (db : DB) (c : String) (fr : Bool) :
    (get_embedding encode now ok st db c fr).db.market_cache =
      db.market_cache := by
  unfold get_embedding
  cases fr with
  | true =>
    simp only [if_pos rfl]
    (repeat' split) <;> simp
  | false =>
    cases hmem : memLookup st.embedding_cache (generate_cache_key c st.model_name) with
    | some v => simp [hmem]
    | none =>
      cases hfind : findEmbedding db (generate_cache_key c st.model_name) with
      | some e => simp [hmem, hfind]
      | none =>
        simp only [hmem, hfind]
        (repeat' split) <;> simp

theorem get_embedding_stock_data (encode : String → Vec) (now : Timestamp)
    (ok : Bool) (st : ServiceState) (db : DB) (c : String) (fr : Bool) :
    (get_embedding encode now ok st db c fr).db.stock_data = db.stock_data := by
  unfold get_embedding
  cases fr with
  | true =>
    simp only [if_pos rfl]
    (repeat' split) <;> simp
  | false =>
    cases hmem : memLookup st.embedding_cache (generate_cache_key c st.model_name) with
    | some v => simp [hmem]
    | none =>
      cases hfind : findEmbedding db (generate_cache_key c st.model_name) with
      | some e => simp [hmem, hfind]
      | none =>
        simp only [hmem, hfind]
        (repeat' split) <;> simp

theorem get_embedding_mem_after (encode : String → Vec) (now : Timestamp)
    (ok : Bool) (st : ServiceState) (db : DB) (c : String) :
    memLookup (get_embedding encode now ok st db c false).state.embedding_cache
        (generate_cache_key c st.model_name) =
      some (get_embedding encode now ok st db c false).vector := by
  unfold get_embedding
  cases hmem : memLookup st.embedding_cache (generate_cache_key c st.model_name) with
  | some v => simp [hmem]
  | none =>
    cases hfind : findEmbedding db (generate_cache_key c st.model_name) with
    | some e => simp [hmem, hfind, memLookup_memInsert_self]
    | none => simp [hmem, hfind, memLookup_memInsert_self]

theorem get_embedding_mem_mono (encode : String → Vec) (now : Timestamp)
    (ok : Bool) (st : ServiceState) (db : DB) (c : String) (k : String)
    (h : (memLookup st.embedding_cache k).isSome) :
    (memLookup (get_embedding encode now ok st db c false).state.embedding_cache
      k).isSome := by
  unfold get_embedding
  cases hmem : memLookup st.embedding_cache (generate_cache_key c st.model_name) with
  | some v => simpa [hmem] using h
  | none =>
    cases hfind : findEmbedding db (generate_cache_key c st.model_name) with
    | some e => simpa [hmem, hfind] using memLookup_memInsert_isSome _ _ _ _ h
    | none => simpa [hmem, hfind] using memLookup_memInsert_isSome _ _ _ _ h

theorem get_embedding_provider_calls (encode : String → Vec) (now : Timestamp)
    (ok : Bool) (st : ServiceState) (db : DB) (c : String) (fr : Bool) :
    (get_embedding encode now ok st db c fr).provider_calls = [] ∨
      (get_embedding encode now ok st db c fr).provider_calls = [c] := by
  unfold get_embedding
  cases fr with
  | true =>
    simp only [if_pos rfl]
    (repeat' split) <;> simp
  | false =>
    cases hmem : memLookup st.embedding_cache (generate_cache_key c st.model_name) with
    | some v => simp [hmem]
    | none =>
      cases hfind : findEmbedding db (generate_cache_key c st.model_name) with
      | some e => simp [hmem, hfind]
      | none =>
        simp only [hmem, hfind]
        (repeat' split) <;> simp

/-- Case characterization of `get_embedding` with `force_refresh = False`:
memory hit, database hit, or full miss, with the exact output of each. -/
theorem get_embedding_cases (encode : String → Vec) (now : Timestamp)
    (ok : Bool) (st : ServiceState) (db : DB) (c : String) :
    (∃ v, memLookup st.embedding_cache (generate_cache_key c st.model_name) = some v ∧
      get_embedding encode now ok st db c false =
        ⟨generate_cache_key c st.model_name, v, st, db, []⟩) ∨
    (∃ r, memLookup st.embedding_cache (generate_cache_key c st.model_name) = none ∧
      findEmbedding db (generate_cache_key c st.model_name) = some r ∧
      get_embedding encode now ok st db c false =
        ⟨generate_cache_key c st.model_name, r.embedding_vector,
         ⟨st.model_name, st.cache_ttl_hours,
          memInsert st.embedding_cache (generate_cache_key c st.model_name)
            r.embedding_vector⟩,
         ⟨db.stock_data,
          updateFirst (fun x => x.embedding_id == generate_cache_key c st.model_name)
            (fun x => ⟨x.embedding_id, x.embedding_vector, x.model_name,
                       x.dimension, x.created_at, now, x.usage_count + 1⟩)
            db.vector_embeddings,
          db.market_cache⟩,
         []⟩) ∨
    (memLookup st.embedding_cache (generate_cache_key c st.model_name) = none ∧
      findEmbedding db (generate_cache_key c st.model_name) = none ∧
      get_embedding encode now ok st db c false =
        ⟨generate_cache_key c st.model_name, encode c,
         ⟨st.model_name, st.cache_ttl_hours,
          memInsert st.embedding_cache (generate_cache_key c st.model_name)
            (encode c)⟩,
         (if ok then
            ⟨db.stock_data,
             db.vector_embeddings ++
               [⟨generate_cache_key c st.model_name, encode c, st.model_name,
                 (encode c).length, now, now, 1⟩],
             db.market_cache⟩
          else db),
         [c]⟩) := by
  cases hmem : memLookup st.embedding_cache (generate_cache_key c st.model_name) with
  | some v =>
    left
    exact ⟨v, rfl, by unfold get_embedding; simp [hmem]⟩
  | none =>
    cases hfind : findEmbedding db (generate_cache_key c st.model_name) with
    | some r =>
      right; left
      refine ⟨r, rfl, rfl, ?_⟩
      unfold get_embedding
      simp [hmem, hfind]
    | none =>
      right; right
      refine ⟨rfl, rfl, ?_⟩
      unfold get_embedding
      cases ok with
      | true => simp [hmem, hfind]
      | false => simp [hmem, hfind]

/-- A `get_embedding` call for content `p` does not change what a
`get_embedding` call for content `c` would return, provided `p`'s cache key
collides with `c`'s only when `p = c`. -/
theorem peek_preserved (encode : String → Vec) (now : Timestamp) (ok : Bool)
    (st : ServiceState) (db : DB) (p c : String)
    (h : generate_cache_key p st.model_name = generate_cache_key c st.model_name →
      p = c) :
    peek_embedding encode (get_embedding encode now ok st db p false).state
        (get_embedding encode now ok st db p false).db c =
      peek_embedding encode st db c := by
  rcases get_embedding_cases encode now ok st db p with
    ⟨v, hmem, he⟩ | ⟨r, hmem, hfind, he⟩ | ⟨hmem, hfind, he⟩
  · rw [he]
  · rw [he]
    by_cases hk : generate_cache_key p st.model_name = generate_cache_key c st.model_name
    · have hpc := h hk
      subst hpc
      unfold peek_embedding
      dsimp only
      rw [memLookup_memInsert_self]
      simp [hmem, hfind]
    · have hne : generate_cache_key c st.model_name ≠ generate_cache_key p st.model_name :=
        fun hh => hk hh.symm
      have h1 : memLookup
          (memInsert st.embedding_cache (generate_cache_key p st.model_name)
            r.embedding_vector)
          (generate_cache_key c st.model_name) =
          memLookup st.embedding_cache (generate_cache_key c st.model_name) :=
        memLookup_memInsert_ne _ _ _ _ hne
      have h2 : (updateFirst
            (fun x => x.embedding_id == generate_cache_key p st.model_name)
            (fun x => ⟨x.embedding_id, x.embedding_vector, x.model_name,
                       x.dimension, x.created_at, now, x.usage_count + 1⟩)
            db.vector_embeddings).find?
            (fun e => e.embedding_id == generate_cache_key c st.model_name) =
          db.vector_embeddings.find?
            (fun e => e.embedding_id == generate_cache_key c st.model_name) := by
        refine find?_updateFirst_of_ne _ _ _ _ (fun x hx => ?_) (fun x hx => ?_)
        · have hx' : x.embedding_id = generate_cache_key p st.model_name := by
            simpa using hx
          simp [hx', Ne.symm hne]
        · have hx' : x.embedding_id = generate_cache_key p st.model_name := by
            simpa using hx
          simp [hx', Ne.symm hne]
      unfold peek_embedding findEmbedding
      dsimp only
      rw [h1, h2]
  · rw [he]
    by_cases hk : generate_cache_key p st.model_name = generate_cache_key c st.model_name
    · have hpc := h hk
      subst hpc
      unfold peek_embedding
      dsimp only
      rw [memLookup_memInsert_self]
      simp [hmem, hfind]
    · have hne : generate_cache_key c st.model_name ≠ generate_cache_key p st.model_name :=
        fun hh => hk hh.symm
      have h1 : memLookup
          (memInsert st.embedding_cache (generate_cache_key p st.model_name)
            (encode p))
          (generate_cache_key c st.model_name) =
          memLookup st.embedding_cache (generate_cache_key c st.model_name) :=
        memLookup_memInsert_ne _ _ _ _ hne
      cases ok with
      | false =>
        unfold peek_embedding
        dsimp only
        rw [h1]
        simp
      | true =>
        have h2 : (db.vector_embeddings ++
              [(⟨generate_cache_key p st.model_name, encode p, st.model_name,
                 (encode p).length, now, now, 1⟩ : VectorEmbedding)]).find?
              (fun e => e.embedding_id == generate_cache_key c st.model_name) =
            db.vector_embeddings.find?
              (fun e => e.embedding_id == generate_cache_key c st.model_name) :=
          find?_append_singleton_ne _ _ _ (Ne.symm hne)
        unfold peek_embedding
        dsimp only
        rw [h1]
        simp [findEmbedding, h2]

/-- In a trace of `get_embedding` calls, every call for content `c` returns
the pair determined by the initial state, provided no other content in the
trace collides with `c`'s cache key. -/
theorem run_outputs (encode : String → Vec) (c : String) :
    ∀ (calls : List EmbedCall) (st : ServiceState) (db : DB),
    (∀ call ∈ calls, generate_cache_key call.content st.model_name =
        generate_cache_key c st.model_name → call.content = c) →
    ∀ pr ∈ calls.zip (run_get_embeddings encode st db calls).outputs,
      pr.1.content = c → pr.2 = peek_embedding encode st db c := by
  intro calls
  induction calls with
  | nil =>
    intro st db _ pr hpr
    simp [run_get_embeddings] at hpr
  | cons call cs ih =>
    intro st db hkey pr hpr hc
    have hkey_head := hkey call (List.mem_cons_self call cs)
    have hkey_tail : ∀ call' ∈ cs,
        generate_cache_key call'.content
            (get_embedding encode call.now call.db_write_ok st db call.content
              false).state.model_name =
          generate_cache_key c
            (get_embedding encode call.now call.db_write_ok st db call.content
              false).state.model_name →
        call'.content = c := by
      intro call' hmem' heq
      apply hkey call' (List.mem_cons_of_mem call hmem')
      rwa [get_embedding_model_name] at heq
    simp only [run_get_embeddings, List.zip_cons_cons, List.mem_cons] at hpr
    rcases hpr with rfl | hpr
    · dsimp at hc ⊢
      rw [hc]
      exact congrArg Prod.mk (congrArg _ rfl) ▸
        get_embedding_peek encode call.now call.db_write_ok st db c
    · have htail := ih
        (get_embedding encode call.now call.db_write_ok st db call.content false).state
        (get_embedding encode call.now call.db_write_ok st db call.content false).db
        hkey_tail pr hpr hc
      exact htail.trans
        (peek_preserved encode call.now call.db_write_ok st db call.content c hkey_head)

/-- In a trace of `get_embedding` calls, the provider is invoked at most
once for any given content `c`, and not at all when the ephemeral map
already holds `c`'s key. -/
theorem run_count (encode : String → Vec) (c : String) :
    ∀ (calls : List EmbedCall) (st : ServiceState) (db : DB),
    ((memLookup st.embedding_cache (generate_cache_key c st.model_name)).isSome →
      (run_get_embeddings encode st db calls).provider_calls.count c = 0) ∧
    (run_get_embeddings encode st db calls).provider_calls.count c ≤ 1 := by
  intro calls
  induction calls with
  | nil =>
    intro st db
    constructor <;> simp [run_get_embeddings]
  | cons call cs ih =>
    intro st db
    have hms : (get_embedding encode call.now call.db_write_ok st db call.content
        false).state.model_name = st.model_name :=
      get_embedding_model_name encode call.now call.db_write_ok st db call.content false
    have ih' := ih
      (get_embedding encode call.now call.db_write_ok st db call.content false).state
      (get_embedding encode call.now call.db_write_ok st db call.content false).db
    rw [hms] at ih'
    have hzero : (memLookup st.embedding_cache
        (generate_cache_key c st.model_name)).isSome →
        (run_get_embeddings encode st db (call :: cs)).provider_calls.count c = 0 := by
      intro hsome
      by_cases hcc : call.content = c
      · subst hcc
        obtain ⟨v, hv⟩ := Option.isSome_iff_exists.mp hsome
        have he := get_embedding_memhit encode call.now call.db_write_ok st db
          call.content v hv
        simp only [run_get_embeddings, he]
        simpa using (ih st db).1 hsome
      · have hmono := get_embedding_mem_mono encode call.now call.db_write_ok st db
          call.content (generate_cache_key c st.model_name) hsome
        have hrest := ih'.1 hmono
        have hpc := get_embedding_provider_calls encode call.now call.db_write_ok
          st db call.content false
        simp only [run_get_embeddings, List.count_append]
        rcases hpc with hpc | hpc <;> rw [hpc] <;>
          simp [List.count_singleton, hrest, hcc]
    refine ⟨hzero, ?_⟩
    by_cases hsome :
      (memLookup st.embedding_cache (generate_cache_key c st.model_name)).isSome
    · rw [hzero hsome]
      omega
    · by_cases hcc : call.content = c
      · subst hcc
        have hafter := get_embedding_mem_after encode call.now call.db_write_ok
          st db call.content
        have hafter' : (memLookup
            (get_embedding encode call.now call.db_write_ok st db call.content
              false).state.embedding_cache
            (generate_cache_key call.content st.model_name)).isSome := by
          simp [hafter]
        have hrest := ih'.1 hafter'
        have hpc := get_embedding_provider_calls encode call.now call.db_write_ok
          st db call.content false
        simp only [run_get_embeddings, List.count_append]
        rcases hpc with hpc | hpc <;> rw [hpc] <;>
          simp [List.count_singleton, hrest]
      · have hrest := ih'.2
        have hpc := get_embedding_provider_calls encode call.now call.db_write_ok
          st db call.content false
        simp only [run_get_embeddings, List.count_append]
        rcases hpc with hpc | hpc <;> rw [hpc] <;>
          simp [List.count_singleton, hcc] <;> omega

/-- C2: For a fixed content `c` (and the service's fixed model name), in any
trace of `get_embedding` calls with `force_refresh = False` in one process,
every call for `c` returns the same identifier
`generate_cache_key c model_name` and a bit-identical vector (the pair
determined by the initial state), and the embedding provider is invoked at
most once for `c`.  The collision hypothesis states that no other content in
the trace shares `c`'s 16-hex-digit cache key. -/
theorem c2_embedding_determinism_at_most_once (encode : String → Vec)
    (st : ServiceState) (db : DB) (calls : List EmbedCall) (c : String)
    (hkey : ∀ call ∈ calls, generate_cache_key call.content st.model_name =
        generate_cache_key c st.model_name → call.content = c) :
    (peek_embedding encode st db c).1 = generate_cache_key c st.model_name ∧
    (∀ pr ∈ calls.zip (run_get_embeddings encode st db calls).outputs,
        pr.1.content = c → pr.2 = peek_embedding encode st db c) ∧
    (run_get_embeddings encode st db calls).provider_calls.count c ≤ 1 := by
  refine ⟨?_, run_outputs encode c calls st db hkey,
    (run_count encode c calls st db).2⟩
  unfold peek_embedding
  cases hmem : memLookup st.embedding_cache (generate_cache_key c st.model_name) with
  | some v => simp [hmem]
  | none =>
    cases hfind : findEmbedding db (generate_cache_key c st.model_name) with
    | some e => simp [hmem, hfind]
    | none => simp [hmem, hfind]

/-- Witness for C2: the trace `"a"`, `"b"`, `"a"` (the last call with a
failing durable write) against an empty store — the two `"a"` calls agree
and the provider sees `"a"` exactly once. -/
theorem c2_embedding_determinism_at_most_once_witness :
    (peek_embedding encode_len st0 dbE "a").1 = generate_cache_key "a" st0.model_name ∧
    (∀ pr ∈ calls2.zip (run_get_embeddings encode_len st0 dbE calls2).outputs,
        pr.1.content = "a" → pr.2 = peek_embedding encode_len st0 dbE "a") ∧
    (run_get_embeddings encode_len st0 dbE calls2).provider_calls.count "a" ≤ 1 :=
  c2_embedding_determinism_at_most_once encode_len st0 dbE calls2 "a" (by decide)

/-- Any result list produced by the compute path of the search is sorted
descending by similarity score. -/
theorem sorted_search_compute (encode : String → Vec) (sim : Vec → Vec → Rat)
    (now : Timestamp) (ok1 ok2 : Bool) (st : ServiceState) (db : DB)
    (q : VectorSearchQuery) (key : String) :
    List.Sorted scoreDesc (search_compute encode sim now ok1 ok2 st db q key).results := by
  simp only [search_compute]
  split
  · simp [List.Sorted]
  · exact List.Pairwise.sublist (List.take_sublist _ _)
      (List.sorted_insertionSort scoreDesc _)

/-- Every row of `updateFirst` is either an untouched original row or the
image of an original row under the update. -/
theorem mem_updateFirst {α : Type} (p : α → Bool) (f : α → α) (l : List α)
    (x : α) (hx : x ∈ updateFirst p f l) : x ∈ l ∨ ∃ y ∈ l, x = f y := by
  induction l with
  | nil => simp [updateFirst] at hx
  | cons a as ih =>
    by_cases hpa : p a = true
    · simp only [updateFirst, hpa, if_pos] at hx
      rcases List.mem_cons.mp hx with rfl | hx'
      · exact Or.inr ⟨a, List.mem_cons_self a as, rfl⟩
      · exact Or.inl (List.mem_cons_of_mem a hx')
    · simp only [updateFirst, hpa, if_neg, Bool.false_eq_true, not_false_iff] at hx
      rcases List.mem_cons.mp hx with rfl | hx'
      · exact Or.inl (List.mem_cons_self x as)
      · rcases ih hx' with h | ⟨y, hy, rfl⟩
        · exact Or.inl (List.mem_cons_of_mem a h)
        · exact Or.inr ⟨y, List.mem_cons_of_mem a hy, rfl⟩

/-- A payload served by the result-cache lookup is the stored `cache_value`
of some `search` entry present before the lookup. -/
theorem get_cached_fst_some (now : Timestamp) (db : DB) (key : String)
    (rs : List VectorSearchResult)
    (h : (get_cached_search_results now db key).1 = some rs) :
    ∃ r ∈ db.market_cache, r.cache_type = "search" ∧ rs = r.cache_value := by
  unfold get_cached_search_results at h
  cases hfind : db.market_cache.find? (cachedSearchPred now key) with
  | none =>
    rw [hfind] at h
    simp at h
  | some r =>
    rw [hfind] at h
    have hval : rs = r.cache_value := by simpa using h.symm
    have hrmem := List.mem_of_find?_eq_some hfind
    have hpred := List.find?_some hfind
    simp only [cachedSearchPred, Bool.and_eq_true, beq_iff_eq,
      decide_eq_true_eq] at hpred
    exact ⟨r, hrmem, hpred.1.2, hval⟩

/-- The result-cache lookup preserves the sorted-payload invariant: a hit
only bumps a counter and an access timestamp. -/
theorem searchCacheSorted_get_cached_snd (now : Timestamp) (db : DB)
    (key : String) (hinv : searchCacheSorted db.market_cache) :
    searchCacheSorted (get_cached_search_results now db key).2.market_cache := by
  unfold get_cached_search_results
  cases hfind : db.market_cache.find? (cachedSearchPred now key) with
  | none => exact hinv
  | some r =>
    dsimp only
    intro x hx htype
    rcases mem_updateFirst _ _ _ _ hx with hx' | ⟨y, hy, rfl⟩
    · exact hinv x hx' htype
    · exact hinv y hy htype

/-- The result-cache write preserves the sorted-payload invariant whenever
the written payload is itself sorted. -/
theorem searchCacheSorted_cache_search_results (now : Timestamp) (ok : Bool)
    (st : ServiceState) (db : DB) (key : String)
    (results : List VectorSearchResult)
    (hinv : searchCacheSorted db.market_cache)
    (hsorted : List.Sorted scoreDesc results) :
    searchCacheSorted
      (cache_search_results now ok st db key results).market_cache := by
  unfold cache_search_results
  split
  · intro x hx htype
    dsimp only at hx
    rcases List.mem_append.mp hx with hx' | hx'
    · exact hinv x hx' htype
    · have hxeq : x = ⟨key, results, "search", now + st.cache_ttl_hours * 3600,
          now, 0, now⟩ := by simpa using hx'
      rw [hxeq]
      exact hsorted
  · exact hinv

/-- The compute path of the search preserves the sorted-payload invariant:
it writes only the sorted truncated ranking (or nothing). -/
theorem searchCacheSorted_search_compute (encode : String → Vec)
    (sim : Vec → Vec → Rat) (now : Timestamp) (ok1 ok2 : Bool)
    (st : ServiceState) (db : DB) (q : VectorSearchQuery) (key : String)
    (hinv : searchCacheSorted db.market_cache) :
    searchCacheSorted
      (search_compute encode sim now ok1 ok2 st db q key).db.market_cache := by
  have hmc := get_embedding_market_cache encode now ok1 st db q.query false
  simp only [search_compute]
  split
  · dsimp only
    rw [hmc]
    exact hinv
  · dsimp only
    apply searchCacheSorted_cache_search_results
    · rw [hmc]
      exact hinv
    · exact List.Pairwise.sublist (List.take_sublist _ _)
        (List.sorted_insertionSort scoreDesc _)

/-- `search_similar_content` preserves the sorted-payload invariant of the
result cache. -/
theorem searchCacheSorted_search (encode : String → Vec)
    (sim : Vec → Vec → Rat) (now : Timestamp) (ok1 ok2 : Bool)
    (st : ServiceState) (db : DB) (q : VectorSearchQuery)
    (hinv : searchCacheSorted db.market_cache) :
    searchCacheSorted
      (search_similar_content encode sim now ok1 ok2 st db q).db.market_cache := by
  have hsnd := searchCacheSorted_get_cached_snd now db
    (generate_search_cache_key st q) hinv
  simp only [search_similar_content]
  cases hlook : (get_cached_search_results now db (generate_search_cache_key st q)).1 with
  | none =>
    simp only [hlook]
    exact searchCacheSorted_search_compute encode sim now ok1 ok2 st _ q _ hsnd
  | some rs =>
    by_cases hrs : rs.isEmpty
    · simp only [hlook, hrs, if_pos]
      exact searchCacheSorted_search_compute encode sim now ok1 ok2 st _ q _ hsnd
    · simp only [hlook, hrs, Bool.false_eq_true, if_neg, not_false_iff]
      exact hsnd

/-- C1 (amended): for EVERY search request — ranking path and cache-served
responses alike — the returned results are sorted in descending order of
similarity score, given the program-maintained invariant that every
`search` cache entry holds a sorted payload (second conjunct: the search
itself preserves that invariant; only the ranking path writes `search`
entries, always storing the ranked list).  Equal scores are NOT broken by
more-recent timestamp first: the ranking is Python's stable score-only
sort, so any two scored candidates already in weakly-descending score
order — in particular two candidates with equal scores, in enumeration
order — keep their relative order through the ranking stage (third
conjunct; the counterexample shows the resulting older-first tie order). -/
theorem c1_results_sorted_descending (encode : String → Vec)
    (sim : Vec → Vec → Rat) (now : Timestamp) (ok1 ok2 : Bool)
    (st : ServiceState) (db : DB) (q : VectorSearchQuery)
    (hinv : searchCacheSorted db.market_cache) :
    List.Sorted scoreDesc
      (search_similar_content encode sim now ok1 ok2 st db q).results ∧
    searchCacheSorted
      (search_similar_content encode sim now ok1 ok2 st db q).db.market_cache ∧
    (∀ (scored : List VectorSearchResult) (a b : VectorSearchResult),
      scoreDesc a b → List.Sublist [a, b] scored →
      List.Sublist [a, b] (scored.insertionSort scoreDesc)) := by
  refine ⟨?_, searchCacheSorted_search encode sim now ok1 ok2 st db q hinv,
    fun scored a b hab hsub => List.pair_sublist_insertionSort hab hsub⟩
  simp only [search_similar_content]
  cases hlook : (get_cached_search_results now db (generate_search_cache_key st q)).1 with
  | none =>
    simp only [hlook]
    exact sorted_search_compute encode sim now ok1 ok2 st _ q _
  | some rs =>
    by_cases hrs : rs.isEmpty
    · simp only [hlook, hrs, if_pos]
      exact sorted_search_compute encode sim now ok1 ok2 st _ q _
    · simp only [hlook, hrs, Bool.false_eq_true, if_neg, not_false_iff]
      obtain ⟨r, hrmem, htype, hval⟩ :=
        get_cached_fst_some now db (generate_search_cache_key st q) rs hlook
      exact hval ▸ hinv r hrmem htype

/-- Witness for C1: the concrete two-record search below starts from an
empty (hence trivially sorted) result cache; its results are sorted, the
invariant is preserved, and the ranking stage is stable. -/
theorem c1_results_sorted_descending_witness :
    List.Sorted scoreDesc
      (search_similar_content encode_unit sim_one 1000 true true st0 db0 q1).results ∧
    searchCacheSorted
      (search_similar_content encode_unit sim_one 1000 true true st0 db0 q1).db.market_cache ∧
    (∀ (scored : List VectorSearchResult) (a b : VectorSearchResult),
      scoreDesc a b → List.Sublist [a, b] scored →
      List.Sublist [a, b] (scored.insertionSort scoreDesc)) :=
  c1_results_sorted_descending encode_unit sim_one 1000 true true st0 db0 q1
    (by intro r hr htype; simp [db0] at hr)

/-- Counterexample to C1 as stated: two results tie at score 1, yet the
older record (timestamp 100) is returned before the more recent one
(timestamp 200) — the code sorts by score only and Python's stable sort
keeps enumeration order, so equal scores are NOT broken by more-recent
timestamp first.  (`sim_one` agrees with the true cosine similarity here:
every scored pair is the identical unit vector `[1,0]`.) -/
theorem c1_counterexample :
    (search_similar_content encode_unit sim_one 1000 true true st0 db0 q1).results.map
      (fun r => (r.similarity_score, r.timestamp)) = [(1, 100), (1, 200)] := by
  decide

/-- C3 (amended): after `cleanup_expired_cache` at time `now`, no CacheEntry
with expiry STRICTLY BEFORE `now` remains (an entry expiring exactly at
`now` survives — see the counterexample), no EmbeddingRecord last used
before `now` minus the 30-day retention window remains, the deleted
embeddings' ids are removed from the ephemeral map, and every other
CacheEntry, EmbeddingRecord, ephemeral entry and all ContentRecords are
untouched. -/
theorem c3_cleanup_sweep (now : Timestamp) (st : ServiceState) (db : DB) :
    (∀ r ∈ (cleanup_expired_cache now st db).db.market_cache, now ≤ r.expires_at) ∧
    (∀ e ∈ (cleanup_expired_cache now st db).db.vector_embeddings,
      now - retention_seconds ≤ e.last_used) ∧
    (∀ r ∈ db.market_cache, now ≤ r.expires_at →
      r ∈ (cleanup_expired_cache now st db).db.market_cache) ∧
    (∀ e ∈ db.vector_embeddings, now - retention_seconds ≤ e.last_used →
      e ∈ (cleanup_expired_cache now st db).db.vector_embeddings) ∧
    (∀ e ∈ db.vector_embeddings, e.last_used < now - retention_seconds →
      ∀ p ∈ (cleanup_expired_cache now st db).state.embedding_cache,
        p.1 ≠ e.embedding_id) ∧
    (∀ p ∈ st.embedding_cache,
      (∀ e ∈ db.vector_embeddings, e.embedding_id = p.1 →
        now - retention_seconds ≤ e.last_used) →
      p ∈ (cleanup_expired_cache now st db).state.embedding_cache) ∧
    (cleanup_expired_cache now st db).db.stock_data = db.stock_data := by
  refine ⟨?_, ?_, ?_, ?_, ?_, ?_, rfl⟩
  · intro r hr
    simp only [cleanup_expired_cache, List.mem_filter] at hr
    have h2 := hr.2
    simp only [Bool.not_eq_true', decide_eq_false_iff_not, not_lt] at h2
    exact h2
  · intro e he
    simp only [cleanup_expired_cache, List.mem_filter] at he
    have h2 := he.2
    simp only [Bool.not_eq_true', decide_eq_false_iff_not, not_lt] at h2
    exact h2
  · intro r hr hle
    simp only [cleanup_expired_cache, List.mem_filter]
    refine ⟨hr, ?_⟩
    simp only [Bool.not_eq_true', decide_eq_false_iff_not, not_lt]
    exact hle
  · intro e he hle
    simp only [cleanup_expired_cache, List.mem_filter]
    refine ⟨he, ?_⟩
    simp only [Bool.not_eq_true', decide_eq_false_iff_not, not_lt]
    exact hle
  · intro e he hold p hp hpe
    simp only [cleanup_expired_cache, List.mem_filter] at hp
    have hall := hp.2
    simp only [Bool.not_eq_true', List.any_eq_false] at hall
    have hthis := hall e (by
      simp only [List.mem_filter]
      exact ⟨he, by simpa using hold⟩)
    simp [hpe] at hthis
  · intro p hp hkeep
    simp only [cleanup_expired_cache, List.mem_filter]
    refine ⟨hp, ?_⟩
    simp only [Bool.not_eq_true', List.any_eq_false]
    intro e he
    simp only [List.mem_filter] at he
    have hkeep' := hkeep e he.1
    by_contra hbe
    simp only [Bool.not_eq_false, beq_iff_eq] at hbe
    have hge := hkeep' hbe
    have hlt := he.2
    simp only [decide_eq_true_eq] at hlt
    exact absurd hlt (not_lt.mpr hge)

/-- Witness for C3: sweeping `db3` at time 101 removes its only (expired)
entry; the survivor/preservation conjuncts are discharged at the same
instance. -/
theorem c3_cleanup_sweep_witness :
    (∀ r ∈ (cleanup_expired_cache 101 st0 db3).db.market_cache, (101:Int) ≤ r.expires_at) ∧
    (∀ e ∈ (cleanup_expired_cache 101 st0 db3).db.vector_embeddings,
      (101:Int) - retention_seconds ≤ e.last_used) ∧
    (∀ r ∈ db3.market_cache, (101:Int) ≤ r.expires_at →
      r ∈ (cleanup_expired_cache 101 st0 db3).db.market_cache) ∧
    (∀ e ∈ db3.vector_embeddings, (101:Int) - retention_seconds ≤ e.last_used →
      e ∈ (cleanup_expired_cache 101 st0 db3).db.vector_embeddings) ∧
    (∀ e ∈ db3.vector_embeddings, e.last_used < (101:Int) - retention_seconds →
      ∀ p ∈ (cleanup_expired_cache 101 st0 db3).state.embedding_cache,
        p.1 ≠ e.embedding_id) ∧
    (∀ p ∈ st0.embedding_cache,
      (∀ e ∈ db3.vector_embeddings, e.embedding_id = p.1 →
        (101:Int) - retention_seconds ≤ e.last_used) →
      p ∈ (cleanup_expired_cache 101 st0 db3).state.embedding_cache) ∧
    (cleanup_expired_cache 101 st0 db3).db.stock_data = db3.stock_data :=
  c3_cleanup_sweep 101 st0 db3

/-- Counterexample to C3 as stated: a CacheEntry whose expiry timestamp is
exactly `now = 100` ("at or before now") survives the sweep — the code
deletes only entries with `expires_at < now`, strictly. -/
theorem c3_counterexample :
    (cleanup_expired_cache 100 st0 db3).db.market_cache = [mc3] ∧
    mc3.expires_at ≤ 100 := by
  constructor
  · decide
  · decide

/-- C4 (amended): a search request whose threshold lies outside `[0,1]` or
whose limit lies outside `[1,100]` is rejected by request-model validation
with a ValidationError before any store access (state and database are
untouched).  A request with `date_from` after `date_to` is NOT rejected:
no constraint relates the two dates (see the counterexample) — the search
executes, applying both date filters. -/
theorem c4_validation_rejects_before_store (encode : String → Vec)
    (sim : Vec → Vec → Rat) (now : Timestamp) (ok1 ok2 : Bool)
    (st : ServiceState) (db : DB) (r : RawVectorSearchQuery)
    (h : r.similarity_threshold < 0 ∨ 1 < r.similarity_threshold ∨
         r.limit < 1 ∨ 100 < r.limit) :
    search_endpoint encode sim now ok1 ok2 st db r =
      (SearchResponse.validationError, st, db) := by
  unfold search_endpoint validate_vector_search_query
  have hnot : ¬(1 ≤ r.limit ∧ r.limit ≤ 100 ∧
      0 ≤ r.similarity_threshold ∧ r.similarity_threshold ≤ 1) := by
    intro hc
    rcases h with h | h | h | h
    · exact absurd hc.2.2.1 (not_le.mpr h)
    · exact absurd hc.2.2.2 (not_le.mpr h)
    · exact absurd hc.1 (not_le.mpr h)
    · exact absurd hc.2.1 (not_le.mpr h)
  rw [if_neg hnot]

/-- Witness for C4: threshold `3/2` is rejected with no store access. -/
theorem c4_validation_rejects_before_store_witness :
    search_endpoint encode_unit sim_one 1000 true true st0 dbE r4b =
      (SearchResponse.validationError, st0, dbE) :=
  c4_validation_rejects_before_store encode_unit sim_one 1000 true true st0 dbE r4b
    (Or.inr (Or.inl (by decide)))

/-- Counterexample to C4 as stated: the request `r4` has `date_from = 100`
after `date_to = 0`, yet it passes validation and the search executes
(returning `ok []`) instead of failing with a ValidationError. -/
theorem c4_counterexample :
    r4.date_from = some 100 ∧ r4.date_to = some 0 ∧
    (search_endpoint encode_unit sim_one 1000 true true st0 dbE r4).1 =
      SearchResponse.ok [] := by
  refine ⟨rfl, rfl, ?_⟩
  decide

/-- C6: a ResultCache lookup returns a payload only from an entry of kind
`"search"` under the requested key whose expiry is strictly in the future at
check time, and on a hit that entry's hit counter is incremented and its
last-accessed timestamp set to the check time; when every matching entry is
expired (or absent), the lookup is a miss and the store is untouched. -/
theorem c6_result_cache_get (now : Timestamp) (db : DB) (key : String) :
    ((∀ r ∈ db.market_cache, r.cache_key = key → r.cache_type = "search" →
        r.expires_at ≤ now) →
      get_cached_search_results now db key = (none, db)) ∧
    (∀ rs db2, get_cached_search_results now db key = (some rs, db2) →
      ∃ r ∈ db.market_cache, r.cache_key = key ∧ r.cache_type = "search" ∧
        now < r.expires_at ∧ rs = r.cache_value ∧
        (⟨r.cache_key, r.cache_value, r.cache_type, r.expires_at, r.created_at,
          r.hit_count + 1, now⟩ : MarketCache) ∈ db2.market_cache) := by
  constructor
  · intro h
    have hnone : db.market_cache.find? (cachedSearchPred now key) = none := by
      rw [List.find?_eq_none]
      intro r hr
      simp only [cachedSearchPred, Bool.and_eq_true, beq_iff_eq,
        decide_eq_true_eq, not_and]
      intro hk hlt
      exact absurd hlt (not_lt.mpr (h r hr hk.1 hk.2))
    unfold get_cached_search_results
    rw [hnone]
  · intro rs db2 heq
    unfold get_cached_search_results at heq
    cases hfind : db.market_cache.find? (cachedSearchPred now key) with
    | none =>
      rw [hfind] at heq
      simp at heq
    | some r =>
      rw [hfind] at heq
      simp only [Prod.mk.injEq, Option.some.injEq] at heq
      obtain ⟨h1, h2⟩ := heq
      have hrmem := List.mem_of_find?_eq_some hfind
      have hpred := List.find?_some hfind
      simp only [cachedSearchPred, Bool.and_eq_true, beq_iff_eq,
        decide_eq_true_eq] at hpred
      obtain ⟨⟨hk, ht⟩, hlt⟩ := hpred
      refine ⟨r, hrmem, hk, ht, hlt, h1.symm, ?_⟩
      rw [← h2]
      exact mem_updateFirst_of_find? _ _ _ _ hfind

/-- Witness for C6: at time 100 the entry of `db3` (expiry 100) is a miss
with the store untouched; at time 50 it is a hit whose counter is bumped. -/
theorem c6_result_cache_get_witness :
    get_cached_search_results 100 db3 "k3" = (none, db3) ∧
    (∃ r ∈ db3.market_cache, r.cache_key = "k3" ∧ r.cache_type = "search" ∧
      (50 : Timestamp) < r.expires_at ∧ ([] : List VectorSearchResult) = r.cache_value ∧
      (⟨r.cache_key, r.cache_value, r.cache_type, r.expires_at, r.created_at,
        r.hit_count + 1, 50⟩ : MarketCache) ∈
        (get_cached_search_results 50 db3 "k3").2.market_cache) :=
  ⟨(c6_result_cache_get 100 db3 "k3").1 (by decide),
   (c6_result_cache_get 50 db3 "k3").2 []
     (get_cached_search_results 50 db3 "k3").2 (by decide)⟩

/-- After any `get_embedding` call, the ephemeral map holds the returned
identifier mapped to the returned vector. -/
theorem get_embedding_mem_id (encode : String → Vec) (now : Timestamp)
    (ok : Bool) (st : ServiceState) (db : DB) (c : String) (fr : Bool) :
    memLookup (get_embedding encode now ok st db c fr).state.embedding_cache
        (get_embedding encode now ok st db c fr).embedding_id =
      some ((get_embedding encode now ok st db c fr).vector) := by
  unfold get_embedding
  cases fr with
  | true =>
    simp only [if_pos rfl]
    simp [memLookup_memInsert_self]
  | false =>
    cases hmem : memLookup st.embedding_cache (generate_cache_key c st.model_name) with
    | some v => simp [hmem]
    | none =>
      cases hfind : findEmbedding db (generate_cache_key c st.model_name) with
      | some e => simp [hmem, hfind, memLookup_memInsert_self]
      | none => simp [hmem, hfind, memLookup_memInsert_self]

/-- The ranked result list of the compute path does not depend on whether
the result-cache write succeeds. -/
theorem search_compute_results_indep (encode : String → Vec)
    (sim : Vec → Vec → Rat) (now : Timestamp) (ok1 : Bool)
    (st : ServiceState) (db : DB) (q : VectorSearchQuery) (key : String) :
    (search_compute encode sim now ok1 false st db q key).results =
      (search_compute encode sim now ok1 true st db q key).results := by
  simp only [search_compute]
  split <;> rfl

/-- C7: a failed durable cache write is swallowed and never fails the call.
For `get_embedding`, the returned identifier and vector and the resulting
ephemeral map are identical whether or not the durable write succeeds, and
the returned pair is always kept in the ephemeral map; for the search, the
returned ranked result list is identical whether or not the result-cache
write succeeds. -/
theorem c7_cache_write_failure_swallowed (encode : String → Vec)
    (sim : Vec → Vec → Rat) (now : Timestamp) (ok : Bool) (st : ServiceState)
    (db : DB) (c : String) (fr : Bool) (q : VectorSearchQuery) :
    ((get_embedding encode now false st db c fr).embedding_id =
      (get_embedding encode now true st db c fr).embedding_id) ∧
    ((get_embedding encode now false st db c fr).vector =
      (get_embedding encode now true st db c fr).vector) ∧
    ((get_embedding encode now false st db c fr).state =
      (get_embedding encode now true st db c fr).state) ∧
    (memLookup (get_embedding encode now false st db c fr).state.embedding_cache
        (get_embedding encode now false st db c fr).embedding_id =
      some ((get_embedding encode now false st db c fr).vector)) ∧
    ((search_similar_content encode sim now ok false st db q).results =
      (search_similar_content encode sim now ok true st db q).results) := by
  refine ⟨?_, ?_, ?_, get_embedding_mem_id encode now false st db c fr, ?_⟩
  · unfold get_embedding
    cases fr with
    | true => simp
    | false =>
      cases hmem : memLookup st.embedding_cache (generate_cache_key c st.model_name) with
      | some v => simp [hmem]
      | none =>
        cases hfind : findEmbedding db (generate_cache_key c st.model_name) with
        | some e => simp [hmem, hfind]
        | none => simp [hmem, hfind]
  · unfold get_embedding
    cases fr with
    | true => simp
    | false =>
      cases hmem : memLookup st.embedding_cache (generate_cache_key c st.model_name) with
      | some v => simp [hmem]
      | none =>
        cases hfind : findEmbedding db (generate_cache_key c st.model_name) with
        | some e => simp [hmem, hfind]
        | none => simp [hmem, hfind]
  · unfold get_embedding
    cases fr with
    | true => simp
    | false =>
      cases hmem : memLookup st.embedding_cache (generate_cache_key c st.model_name) with
      | some v => simp [hmem]
      | none =>
        cases hfind : findEmbedding db (generate_cache_key c st.model_name) with
        | some e => simp [hmem, hfind]
        | none => simp [hmem, hfind]
  · unfold search_similar_content
    cases hlook : (get_cached_search_results now db (generate_search_cache_key st q)).1 with
    | none =>
      simp only [hlook]
      exact search_compute_results_indep encode sim now ok st _ q _
    | some rs =>
      by_cases hrs : rs.isEmpty
      · simp only [hlook, hrs, if_pos]
        exact search_compute_results_indep encode sim now ok st _ q _
      · simp only [hlook, hrs, Bool.false_eq_true, if_neg, not_false_iff]

/-- C8 (amended): with `force_refresh = False`, a durable-store cache hit
(memory miss) touches the matching EmbeddingRecord — usage counter
incremented by one and last-used timestamp set to now — and returns its
vector; an ephemeral-map hit, however, returns immediately and leaves the
durable store (and everything else) completely untouched, contrary to the
claim's "every cache hit" (see the counterexample). -/
theorem c8_touch_on_durable_hit_only (encode : String → Vec) (now : Timestamp)
    (ok : Bool) (st : ServiceState) (db : DB) (c : String) :
    (∀ v, memLookup st.embedding_cache (generate_cache_key c st.model_name) = some v →
      get_embedding encode now ok st db c false =
        ⟨generate_cache_key c st.model_name, v, st, db, []⟩) ∧
    (memLookup st.embedding_cache (generate_cache_key c st.model_name) = none →
      ∀ r, findEmbedding db (generate_cache_key c st.model_name) = some r →
        (get_embedding encode now ok st db c false).vector = r.embedding_vector ∧
        (⟨r.embedding_id, r.embedding_vector, r.model_name, r.dimension,
          r.created_at, now, r.usage_count + 1⟩ : VectorEmbedding) ∈
          (get_embedding encode now ok st db c false).db.vector_embeddings) := by
  constructor
  · intro v hv
    exact get_embedding_memhit encode now ok st db c v hv
  · intro hmem r hfind
    rcases get_embedding_cases encode now ok st db c with
      ⟨v, hm, _⟩ | ⟨r', hm, hf, he⟩ | ⟨hm, hf, _⟩
    · rw [hmem] at hm
      cases hm
    · rw [hfind] at hf
      have hrr : r = r' := by injection hf
      subst hrr
      rw [he]
      constructor
      · rfl
      · exact mem_updateFirst_of_find? _ _ _ _ hfind
    · rw [hfind] at hf
      cases hf

/-- Witness for C8: on `st8`/`db8` the ephemeral hit returns untouched
state, and from a cold map the durable hit on `ve8` yields the vector and
the touched record (usage 5 → 6, last-used 0 → 10). -/
theorem c8_touch_on_durable_hit_only_witness :
    get_embedding encode_unit 10 true st8 db8 "c" false =
      ⟨generate_cache_key "c" st8.model_name, [1], st8, db8, []⟩ ∧
    ((get_embedding encode_unit 10 true st0 db8 "c" false).vector =
        ve8.embedding_vector ∧
      (⟨ve8.embedding_id, ve8.embedding_vector, ve8.model_name, ve8.dimension,
        ve8.created_at, 10, ve8.usage_count + 1⟩ : VectorEmbedding) ∈
        (get_embedding encode_unit 10 true st0 db8 "c" false).db.vector_embeddings) :=
  ⟨(c8_touch_on_durable_hit_only encode_unit 10 true st8 db8 "c").1 [1] (by decide),
   (c8_touch_on_durable_hit_only encode_unit 10 true st0 db8 "c").2 (by decide)
     ve8 (by decide)⟩

/-- Counterexample to C8 as stated: an ephemeral-map hit (`key8` is in
`st8`'s map) performs no provider call and leaves the durable record's
usage counter at 5 and last-used at 0 — the EmbeddingRecord is NOT touched
on this cache hit. -/
theorem c8_counterexample :
    (get_embedding encode_unit 10 true st8 db8 "c" false).provider_calls = [] ∧
    (get_embedding encode_unit 10 true st8 db8 "c" false).db.vector_embeddings.map
      (fun e => (e.usage_count, e.last_used)) = [(5, 0)] := by
  decide

/-- C9 (amended): `create_stock_data` stores the symbol upper-cased
(`symbol.upper()`), while the vector-search symbol filter compares the
stored symbol against the filter list case-SENSITIVELY: a record matches a
non-empty symbol filter only when the list contains the stored (upper-case)
spelling verbatim; a filter naming the symbol in another letter case does
not match (see the counterexample). -/
theorem c9_symbol_case (encode : String → Vec) (now : Timestamp) (ok : Bool)
    (st : ServiceState) (db : DB) (input : StockDataCreate)
    (q : VectorSearchQuery) (item : StockData) (syms : List String)
    (hs : q.symbols = some syms) (hne : syms ≠ [])
    (hf : build_filter_conditions q item = true) :
    (create_stock_data encode now ok st db input).1.symbol = str_upper input.symbol ∧
    item.symbol ∈ syms := by
  constructor
  · rfl
  · cases syms with
    | nil => exact absurd rfl hne
    | cons s ss =>
      unfold build_filter_conditions at hf
      rw [hs] at hf
      simp only [Bool.and_eq_true] at hf
      have hA := hf.1.1.1
      exact List.elem_iff.mp hA

/-- Witness for C9: creating `inp9` (symbol `"aapl"`) stores `"AAPL"`, and
a concrete news record for `"AAPL"` passing the filter of a query whose
symbol list is `["AAPL"]` indeed has its symbol in that list. -/
theorem c9_symbol_case_witness :
    (create_stock_data encode_unit 50 true st0 dbE inp9).1.symbol =
      str_upper inp9.symbol ∧
    (⟨0, 50, "AAPL", "news", "x", [], some "e", some 50⟩ : StockData).symbol ∈
      ["AAPL"] :=
  c9_symbol_case encode_unit 50 true st0 dbE inp9
    ⟨"apple", some ["AAPL"], 10, 0, true, true, none, none⟩
    ⟨0, 50, "AAPL", "news", "x", [], some "e", some 50⟩ ["AAPL"]
    rfl (by decide) (by decide)

/-- Counterexample to C9 as stated: after creating a record with symbol
`"aapl"` (stored as `"AAPL"`), a search filtering on `["aapl"]` returns
nothing while the same search filtering on `["AAPL"]` returns the record —
the symbol filter of search is not case-insensitive. -/
theorem c9_counterexample :
    (create_stock_data encode_unit 50 true st0 dbE inp9).1.symbol = "AAPL" ∧
    (search_similar_content encode_unit sim_one 60 true true
      (create_stock_data encode_unit 50 true st0 dbE inp9).2.1
      (create_stock_data encode_unit 50 true st0 dbE inp9).2.2.1
      ⟨"apple", some ["aapl"], 10, 0, true, true, none, none⟩).results = [] ∧
    (search_similar_content encode_unit sim_one 60 true true
      (create_stock_data encode_unit 50 true st0 dbE inp9).2.1
      (create_stock_data encode_unit 50 true st0 dbE inp9).2.2.1
      ⟨"apple", some ["AAPL"], 10, 0, true, true, none, none⟩).results.map
      (·.symbol) = [some "AAPL"] := by
  decide

/-- C10: the search fingerprint is a pure function of exactly the eight
request fields — query text, canonicalized (sorted, empty→none) symbols,
limit, threshold, the two inclusion flags and the two date bounds — and is
independent of the service configuration, in particular of the embedding
model name: differently-configured services compute the same fingerprint
for the same request, and therefore address the same ResultCache entry. -/
theorem c10_fingerprint_model_independent (st1 st2 st : ServiceState)
    (q q1 q2 : VectorSearchQuery) (now : Timestamp) (db : DB)
    (hq : q1.query = q2.query)
    (hs : canonicalSymbols q1.symbols = canonicalSymbols q2.symbols)
    (hl : q1.limit = q2.limit)
    (ht : q1.similarity_threshold = q2.similarity_threshold)
    (hn : q1.include_news = q2.include_news)
    (ha : q1.include_analysis = q2.include_analysis)
    (hf : q1.date_from = q2.date_from)
    (hd : q1.date_to = q2.date_to) :
    generate_search_cache_key st1 q = generate_search_cache_key st2 q ∧
    generate_search_cache_key st q1 = generate_search_cache_key st q2 ∧
    get_cached_search_results now db (generate_search_cache_key st1 q) =
      get_cached_search_results now db (generate_search_cache_key st2 q) := by
  refine ⟨rfl, ?_, rfl⟩
  unfold generate_search_cache_key serialize_search_query
  rw [hq, hs, hl, ht, hn, ha, hf, hd]

/-- Witness for C10: two services configured with models `"m1"` and `"m2"`
compute the same fingerprint for `q1` and address the same cache entry. -/
theorem c10_fingerprint_model_independent_witness :
    generate_search_cache_key ⟨"m1", 24, []⟩ q1 =
      generate_search_cache_key ⟨"m2", 1, []⟩ q1 ∧
    generate_search_cache_key st0 q1 = generate_search_cache_key st0 q1 ∧
    get_cached_search_results 0 dbE (generate_search_cache_key ⟨"m1", 24, []⟩ q1) =
      get_cached_search_results 0 dbE (generate_search_cache_key ⟨"m2", 1, []⟩ q1) :=
  c10_fingerprint_model_independent ⟨"m1", 24, []⟩ ⟨"m2", 1, []⟩ st0 q1 q1 q1 0 dbE
    rfl rfl rfl rfl rfl rfl rfl rfl

/-- If no row in the table carries the requested key, the cached-search
predicate matches nothing at any check time. -/
theorem find?_cachedSearchPred_none (now : Timestamp) (key : String)
    (mc : List MarketCache)
    (hfresh : mc.find? (fun r => r.cache_key == key) = none) :
    mc.find? (cachedSearchPred now key) = none := by
  rw [List.find?_eq_none] at hfresh ⊢
  intro r hr
  have hk := hfresh r hr
  simp only [beq_iff_eq] at hk
  simp only [cachedSearchPred, Bool.and_eq_true, beq_iff_eq, not_and]
  intro hkey
  exact absurd hkey.1 hk

/-- A key absent from the result cache is a miss at any check time, and the
lookup leaves the database unchanged. -/
theorem get_cached_none_of_no_key (now : Timestamp) (db : DB) (key : String)
    (hfresh : db.market_cache.find? (fun r => r.cache_key == key) = none) :
    get_cached_search_results now db key = (none, db) := by
  unfold get_cached_search_results
  rw [find?_cachedSearchPred_none now key db.market_cache hfresh]

/-- When the cache lookup misses, the search is the compute path on the
unchanged database. -/
theorem search_miss_eq_compute (encode : String → Vec) (sim : Vec → Vec → Rat)
    (now : Timestamp) (ok1 ok2 : Bool) (st : ServiceState) (db : DB)
    (q : VectorSearchQuery)
    (h : get_cached_search_results now db (generate_search_cache_key st q) =
      (none, db)) :
    search_similar_content encode sim now ok1 ok2 st db q =
      search_compute encode sim now ok1 ok2 st db q
        (generate_search_cache_key st q) := by
  simp only [search_similar_content]
  rw [h]

/-- When the compute path yields a non-empty result list, it takes the
caching branch: the returned structure is exactly the ranked list together
with the result-cache write on the post-embedding database. -/
theorem search_compute_nonempty_shape (encode : String → Vec)
    (sim : Vec → Vec → Rat) (now : Timestamp) (ok1 ok2 : Bool)
    (st : ServiceState) (db : DB) (q : VectorSearchQuery) (key : String)
    (hne : (search_compute encode sim now ok1 ok2 st db q key).results ≠ []) :
    search_compute encode sim now ok1 ok2 st db q key =
      ⟨(search_compute encode sim now ok1 ok2 st db q key).results, false,
       (get_embedding encode now ok1 st db q.query false).state,
       cache_search_results now ok2
         (get_embedding encode now ok1 st db q.query false).state
         (get_embedding encode now ok1 st db q.query false).db key
         (search_compute encode sim now ok1 ok2 st db q key).results,
       (get_embedding encode now ok1 st db q.query false).provider_calls⟩ := by
  simp only [search_compute] at hne ⊢
  by_cases hemp : ((get_embedding encode now ok1 st db q.query false).db.stock_data.filter
      (fun item => item.embedding_id.isSome && build_filter_conditions q item)).isEmpty = true
  · rw [if_pos hemp] at hne
    exact absurd rfl hne
  · rw [if_neg hemp] at hne ⊢

/-- C5 (amended): for two identical search requests issued back-to-back
with no intervening writes or expiry — the search key initially absent from
the result cache, the first run's cache write succeeding, and the second
run before the entry's expiry — IF the first request returns a non-empty
result list, then the second returns the identical result list, is served
from the ResultCache (`from_cache = true`), and performs no provider
invocation.  (A first request with an EMPTY result list is re-computed by
the second call instead of being served from the cache — see the
counterexample.) -/
theorem c5_second_search_served_from_cache (encode : String → Vec)
    (sim : Vec → Vec → Rat) (now1 now2 : Timestamp) (ok1 ok2a ok2b : Bool)
    (st : ServiceState) (db : DB) (q : VectorSearchQuery)
    (hfresh : db.market_cache.find?
      (fun r => r.cache_key == generate_search_cache_key st q) = none)
    (hne : (search_similar_content encode sim now1 ok1 true st db q).results ≠ [])
    (hexp : now2 < now1 + st.cache_ttl_hours * 3600) :
    (search_similar_content encode sim now2 ok2a ok2b
        (search_similar_content encode sim now1 ok1 true st db q).state
        (search_similar_content encode sim now1 ok1 true st db q).db q).results =
      (search_similar_content encode sim now1 ok1 true st db q).results ∧
    (search_similar_content encode sim now2 ok2a ok2b
        (search_similar_content encode sim now1 ok1 true st db q).state
        (search_similar_content encode sim now1 ok1 true st db q).db q).from_cache
      = true ∧
    (search_similar_content encode sim now2 ok2a ok2b
        (search_similar_content encode sim now1 ok1 true st db q).state
        (search_similar_content encode sim now1 ok1 true st db q).db q).provider_calls
      = [] := by
  have hA : get_cached_search_results now1 db (generate_search_cache_key st q) =
      (none, db) :=
    get_cached_none_of_no_key now1 db _ hfresh
  have hB := search_miss_eq_compute encode sim now1 ok1 true st db q hA
  rw [hB] at hne
  set e := get_embedding encode now1 ok1 st db q.query false with hedef
  set R := (search_compute encode sim now1 ok1 true st db q
    (generate_search_cache_key st q)).results with hRdef
  have hshape := search_compute_nonempty_shape encode sim now1 ok1 true st db q
    (generate_search_cache_key st q) hne
  have hmc : e.db.market_cache = db.market_cache :=
    get_embedding_market_cache encode now1 ok1 st db q.query false
  have httl : e.state.cache_ttl_hours = st.cache_ttl_hours :=
    get_embedding_ttl encode now1 ok1 st db q.query false
  have hfind_e : e.db.market_cache.find?
      (fun r => r.cache_key == generate_search_cache_key st q) = none := by
    rw [hmc]; exact hfresh
  have hRne : R.isEmpty = false := by
    cases hR : R with
    | nil => exact absurd hR hne
    | cons a as => rfl
  have hlook2 : (get_cached_search_results now2
      (cache_search_results now1 true e.state e.db (generate_search_cache_key st q) R)
      (generate_search_cache_key st q)).1 = some R := by
    unfold cache_search_results
    rw [if_pos (by simp [hfind_e])]
    unfold get_cached_search_results
    dsimp only
    rw [List.find?_append,
      find?_cachedSearchPred_none now2 _ _ (by rw [hmc]; exact hfresh)]
    have hrow : List.find? (cachedSearchPred now2 (generate_search_cache_key st q))
        [(⟨generate_search_cache_key st q, R, "search",
           now1 + e.state.cache_ttl_hours * 3600, now1, 0, now1⟩ : MarketCache)] =
        some ⟨generate_search_cache_key st q, R, "search",
           now1 + e.state.cache_ttl_hours * 3600, now1, 0, now1⟩ := by
      apply List.find?_cons_of_pos
      rw [httl]
      simp [cachedSearchPred, hexp]
    rw [hrow, Option.none_or]
  have hout2 : search_similar_content encode sim now2 ok2a ok2b e.state
      (cache_search_results now1 true e.state e.db
        (generate_search_cache_key st q) R) q =
      ⟨R, true, e.state,
       (get_cached_search_results now2
         (cache_search_results now1 true e.state e.db
           (generate_search_cache_key st q) R)
         (generate_search_cache_key st q)).2, []⟩ := by
    simp only [search_similar_content]
    have hk2 : generate_search_cache_key e.state q =
        generate_search_cache_key st q := rfl
    rw [hk2, hlook2]
    dsimp only
    rw [if_neg (by rw [hRne]; exact Bool.false_ne_true)]
  rw [hB, hshape]
  dsimp only
  rw [hout2]
  exact ⟨rfl, rfl, rfl⟩

/-- Witness for C5: on `db0` the first search returns two results; the
second identical search at time 2000 returns them from the cache with no
provider call. -/
theorem c5_second_search_served_from_cache_witness :
    (search_similar_content encode_unit sim_one 2000 true true
        (search_similar_content encode_unit sim_one 1000 true true st0 db0 q1).state
        (search_similar_content encode_unit sim_one 1000 true true st0 db0 q1).db
        q1).results =
      (search_similar_content encode_unit sim_one 1000 true true st0 db0 q1).results ∧
    (search_similar_content encode_unit sim_one 2000 true true
        (search_similar_content encode_unit sim_one 1000 true true st0 db0 q1).state
        (search_similar_content encode_unit sim_one 1000 true true st0 db0 q1).db
        q1).from_cache = true ∧
    (search_similar_content encode_unit sim_one 2000 true true
        (search_similar_content encode_unit sim_one 1000 true true st0 db0 q1).state
        (search_similar_content encode_unit sim_one 1000 true true st0 db0 q1).db
        q1).provider_calls = [] :=
  c5_second_search_served_from_cache encode_unit sim_one 1000 2000 true true true
    st0 db0 q1 (by decide) (by decide) (by decide)

/-- Counterexample to C5 as stated: on an empty corpus, two identical
back-to-back searches both return the (identical, empty) result set, but the
second is NOT served from the ResultCache — the empty-candidate path caches
nothing, and an empty cached list would be treated as a miss anyway. -/
theorem c5_counterexample :
    (search_similar_content encode_unit sim_one 1000 true true st0 dbE q1).results
      = [] ∧
    (search_similar_content encode_unit sim_one 1001 true true
        (search_similar_content encode_unit sim_one 1000 true true st0 dbE q1).state
        (search_similar_content encode_unit sim_one 1000 true true st0 dbE q1).db
        q1).results = [] ∧
    (search_similar_content encode_unit sim_one 1001 true true
        (search_similar_content encode_unit sim_one 1000 true true st0 dbE q1).state
        (search_similar_content encode_unit sim_one 1000 true true st0 dbE q1).db
        q1).from_cache = false := by
  decide
